import Mathlib

/-!
Verification of the switch-element geometry generators in
`schemdraw/elements/switches.py`.

Each Python element constructor is embedded as a Lean function producing an
`ElementState`: the ordered list of segment primitives it appends, the anchor
bindings it registers (in registration order, as an association list), and the
rendering parameters it sets.  Real coordinates are `ℝ`; Python's
`math.radians`, `math.cos`, `math.sin` are `radians`, `Real.cos`, `Real.sin`.
Anchor-name strings (`'P'`, `f'T{i+1}'`, `'a'`, ...) are embedded as the
structured type `AnchorName`.
-/

open List

/-- The contact-dot radius constant `sw_dot_r = .12`. -/
def sw_dot_r : ℝ := 0.12

/-- A vertex of a `Segment` path: an explicit 2-D point or the `gap` pen-up marker. -/
inductive PathPoint
  | pt (x y : ℝ)
  | gap

/-- Shorthand for an explicit path vertex. -/
def P2 (x y : ℝ) : PathPoint := PathPoint.pt x y

/-- The `gap` marker imported from `elements`. -/
def gap : PathPoint := PathPoint.gap

/-- The segment primitives this module constructs: `Segment` (polyline with
optional linestyle), `SegmentCircle`, `SegmentArc` (with optional arrow
direction), and `SegmentArrow` (with optional zorder). -/
inductive SegmentType
  | seg (points : List PathPoint) (ls : Option String)
  | circle (center : ℝ × ℝ) (radius : ℝ)
  | arc (center : ℝ × ℝ) (width height theta1 theta2 : ℝ) (arrowdir : Option String)
  | arrow (tail tip : ℝ × ℝ) (zorder : Option ℤ)

/-- Anchor-name keys used by the switch elements (`'P'`, `f'T{i}'`, `'a'`,
`'b'`, `'c'`, `'p1'`, `'t1'`, ...), embedded structurally. -/
inductive AnchorName
  | P
  | T (i : ℕ)
  | a
  | b
  | c
  | p1
  | p2
  | t1
  | t2
  | t3
  | t4
deriving DecidableEq

/-- The state an element constructor builds: segments appended, anchors
registered, and the rendering parameters (`fill`, `zorder`, `drop`) set. -/
structure ElementState where
  segments : List SegmentType
  anchors : List (AnchorName × (ℝ × ℝ))
  fill : Option String
  zorder : Option ℤ
  drop : Option (ℝ × ℝ)

/-- Dict-style anchor lookup (all anchor keys set by this module are distinct,
so first-match association-list lookup agrees with Python dict lookup). -/
def anchorOf (e : ElementState) (nm : AnchorName) : Option (ℝ × ℝ) :=
  e.anchors.lookup nm

/-- Degrees to radians, `math.radians`. -/
noncomputable def radians (d : ℝ) : ℝ := d * (Real.pi / 180)

/-- Embedding of `Switch.__init__`: lever polyline, two contact-dot circles, and an
optional action arc (`'open'` → ccw arrow arc, `'close'` → cw arrow arc). -/
def Switch (action : Option String) : ElementState :=
  let segs := [SegmentType.seg [P2 0 0, gap, P2 (sw_dot_r * 2) 0.1, P2 0.8 0.45, gap, P2 1 0] none,
               SegmentType.circle (sw_dot_r, 0) sw_dot_r,
               SegmentType.circle (1 - sw_dot_r, 0) sw_dot_r]
  let segs := if action = some "open" then
      segs ++ [SegmentType.arc (0.4, 0.1) 0.5 0.75 (-10) 70 (some "ccw")]
    else segs
  let segs := if action = some "close" then
      segs ++ [SegmentType.arc (0.4, 0.25) 0.5 0.75 (-10) 70 (some "cw")]
    else segs
  ⟨segs, [], none, none, none⟩

/-- Embedding of `SwitchSpdt.__init__`: the base `Switch` geometry (action forwarded
unchanged), plus a third contact circle and anchors `a`, `b`, `c`. -/
def SwitchSpdt (action : Option String) : ElementState :=
  let base := Switch action
  ⟨base.segments ++ [SegmentType.circle (1 - sw_dot_r, 0.7) sw_dot_r],
   base.anchors ++ [(AnchorName.a, (0, 0)), (AnchorName.b, (1, 0)), (AnchorName.c, (1, 0.7))],
   base.fill, base.zorder, base.drop⟩

/-- Embedding of `SwitchSpdt2.__init__`: standalone double-throw switch with throws above
and below, anchors `a`, `b`, `c`, optional action arc (if/elif), and the
`drop` layout parameter set to `(1, .4)`. -/
def SwitchSpdt2 (action : Option String) : ElementState :=
  let segs := [SegmentType.seg [P2 0 0, gap, P2 (sw_dot_r * 2) 0.1, P2 0.7 0.25, gap, P2 1 0.4] none,
               SegmentType.circle (sw_dot_r, 0) sw_dot_r,
               SegmentType.circle (1 - sw_dot_r, -0.4) sw_dot_r,
               SegmentType.circle (1 - sw_dot_r, 0.4) sw_dot_r]
  let segs := if action = some "open" then
      segs ++ [SegmentType.arc (0.35, 0) 0.5 0.75 (-10) 70 (some "ccw")]
    else if action = some "close" then
      segs ++ [SegmentType.arc (0.3, 0) 0.5 0.75 (-10) 70 (some "cw")]
    else segs
  ⟨segs,
   [(AnchorName.a, (0, 0)), (AnchorName.b, (1, 0.4)), (AnchorName.c, (1, -0.4))],
   none, none, some (1, 0.4)⟩

/-- Embedding of `SwitchDpst.__init__`: two stacked poles (`yofst = -1`), an optional
dotted (`ls=':'`) link segment when `link`, and anchors `p1`, `t1`, `p2`, `t2`. -/
def SwitchDpst (link : Bool) : ElementState :=
  let yofst : ℝ := -1
  let segs := [SegmentType.seg [P2 0 0, gap, P2 (sw_dot_r * 2) 0.1, P2 0.8 0.45, gap, P2 1 0] none,
               SegmentType.circle (sw_dot_r, 0) sw_dot_r,
               SegmentType.circle (1 - sw_dot_r, 0) sw_dot_r,
               SegmentType.seg [P2 0 yofst, gap, P2 (sw_dot_r * 2) (yofst + 0.1),
                                P2 0.8 (yofst + 0.45), gap, P2 1 yofst] none,
               SegmentType.circle (sw_dot_r, yofst) sw_dot_r,
               SegmentType.circle (1 - sw_dot_r, yofst) sw_dot_r]
  let segs := if link then
      segs ++ [SegmentType.seg [P2 0.5 (yofst + 0.25), P2 0.5 0.2] (some ":")]
    else segs
  ⟨segs,
   [(AnchorName.p1, (0, 0)), (AnchorName.t1, (1, 0)),
    (AnchorName.p2, (0, yofst)), (AnchorName.t2, (1, yofst))],
   none, none, none⟩

/-- Embedding of `SwitchDpdt.__init__`: two stacked double-throw poles (`yofst = -1.4`),
an optional dotted link segment when `link`, and anchors `p1`, `t1`, `t2`,
`p2`, `t3`, `t4`. -/
def SwitchDpdt (link : Bool) : ElementState :=
  let yofst : ℝ := -1.4
  let segs := [SegmentType.seg [P2 0 0, gap, P2 (sw_dot_r * 2) 0.1, P2 0.7 0.25, gap, P2 1 0.4] none,
               SegmentType.circle (sw_dot_r, 0) sw_dot_r,
               SegmentType.circle (1 - sw_dot_r, -0.4) sw_dot_r,
               SegmentType.circle (1 - sw_dot_r, 0.4) sw_dot_r,
               SegmentType.seg [P2 0 yofst, gap, P2 (sw_dot_r * 2) (yofst + 0.1),
                                P2 0.7 (yofst + 0.25), gap, P2 1 (yofst + 0.4)] none,
               SegmentType.circle (sw_dot_r, yofst) sw_dot_r,
               SegmentType.circle (1 - sw_dot_r, yofst - 0.4) sw_dot_r,
               SegmentType.circle (1 - sw_dot_r, yofst + 0.4) sw_dot_r]
  let segs := if link then
      segs ++ [SegmentType.seg [P2 0.5 (yofst + 0.25), P2 0.5 0.2] (some ":")]
    else segs
  ⟨segs,
   [(AnchorName.p1, (0, 0)), (AnchorName.t1, (1, 0.4)), (AnchorName.t2, (1, -0.4)),
    (AnchorName.p2, (0, yofst)), (AnchorName.t3, (1, yofst + 0.4)),
    (AnchorName.t4, (1, yofst - 0.4))],
   none, none, none⟩

/-- Modelled from the spec: the `linspace` collaborator (`schemdraw.util`,
not part of this module's source), "a uniformly-spaced sample-points
generator producing `k` evenly spaced values over a closed angular
interval"; `num` is the sample count. -/
noncomputable def linspace (start stop : ℝ) (num : ℕ) : List ℝ :=
  (List.range num).map (fun (i : ℕ) => start + (stop - start) * (i : ℝ) / ((num : ℝ) - 1))

/-- The sample angles `th = linspace(-pi/2, pi/2)` in `SwitchReed.__init__`; `k` is the sample
count per semicircular half. -/
noncomputable def reedTh (k : ℕ) : List ℝ :=
  linspace (-(Real.pi / 2)) (Real.pi / 2) k

/-- The left-semicircle x samples `x1` (`r = .3`). -/
noncomputable def reedX1 (k : ℕ) : List ℝ :=
  (reedTh k).map (fun t => -0.3 * Real.cos t)

/-- The semicircle y samples `y1` (`r = .3`). -/
noncomputable def reedY1 (k : ℕ) : List ℝ :=
  (reedTh k).map (fun t => 0.3 * Real.sin t)

/-- The combined abscissas `x = x1 + x2 + [x1[0]]`, with `x2 = [1-k for k in x1]` the right
semicircle. -/
noncomputable def reedX (k : ℕ) : List ℝ :=
  reedX1 k ++ (reedX1 k).map (fun v => 1 - v) ++ [(reedX1 k).headD 0]

/-- The combined ordinates `y = y1 + y1[::-1] + [y1[0]]`. -/
noncomputable def reedY (k : ℕ) : List ℝ :=
  reedY1 k ++ (reedY1 k).reverse ++ [(reedY1 k).headD 0]

/-- The reed-switch glass-envelope point list `list(zip(x, y))`: two
semicircular halves joined and closed back to the first point. -/
noncomputable def reedEnvelope (k : ℕ) : List (ℝ × ℝ) :=
  (reedX k).zip (reedY k)

/-- Embedding of `SwitchReed.__init__`: the lever polyline plus the closed capsule
envelope; `k` is the linspace sampling count per semicircular half. -/
noncomputable def SwitchReed (k : ℕ) : ElementState :=
  ⟨[SegmentType.seg [P2 0 0, P2 0.85 0.15, gap, P2 0.8 0] none,
    SegmentType.seg ((reedEnvelope k).map (fun p => P2 p.1 p.2)) none],
   [], none, none, none⟩

/-- The `dtheta` resolution in `SwitchRotary.__init__` (degrees): the argument if
supplied, else `min(35, 360/(n+1))`. -/
noncomputable def rotaryDtheta (n : ℕ) (dtheta : Option ℝ) : ℝ :=
  match dtheta with
  | none => min 35 (360 / ((n : ℝ) + 1))
  | some d => d

/-- The `theta0` resolution in `SwitchRotary.__init__`, applied after `dtheta`
has been converted to radians (`dthetaRad`): the argument if supplied (used
as-is, with no degree conversion), else `-dthetaRad * (n-1)/2`. -/
noncomputable def rotaryTheta0 (n : ℕ) (dthetaRad : ℝ) (theta0 : Option ℝ) : ℝ :=
  match theta0 with
  | none => -dthetaRad * ((n : ℝ) - 1) / 2
  | some t => t

/-- The angle `t = theta0 + dtheta * i` at which `SwitchRotary` places
contact `i`. -/
noncomputable def contactAngle (n : ℕ) (dtheta theta0 : Option ℝ) (i : ℕ) : ℝ :=
  let dthr := radians (rotaryDtheta n dtheta)
  rotaryTheta0 n dthr theta0 + dthr * i

/-- Embedding of `SwitchRotary.__init__`: origin dot and anchor `P`, then for each contact
`i < n` a dot at `(radius*cos t, radius*sin t)` and anchor `T(i+1)`, with a
pointer arrow of length `arrowlen` when `i == arrowcontact`; sets
`fill='bg'`, `zorder=4`. -/
noncomputable def SwitchRotary (n : ℕ) (dtheta theta0 : Option ℝ) (radius arrowlen : ℝ)
    (arrowcontact : ℤ) : ElementState :=
  let segs := [SegmentType.circle (0, 0) sw_dot_r] ++
    (List.range n).flatMap (fun i =>
      let t := contactAngle n dtheta theta0 i
      [SegmentType.circle (radius * Real.cos t, radius * Real.sin t) sw_dot_r] ++
      (if (i : ℤ) = arrowcontact then
        [SegmentType.arrow (0, 0) (arrowlen * Real.cos t, arrowlen * Real.sin t) (some 2)]
      else []))
  let anchors := [(AnchorName.P, ((0 : ℝ), (0 : ℝ)))] ++
    (List.range n).map (fun i =>
      let t := contactAngle n dtheta theta0 i
      (AnchorName.T (i + 1), (radius * Real.cos t, radius * Real.sin t)))
  ⟨segs, anchors, some "bg", some 4, none⟩

/-- Is a segment a `SegmentArrow`? -/
def isArrowSeg : SegmentType → Bool
  | .arrow _ _ _ => true
  | _ => false

/-- Is a segment a `SegmentArc`? -/
def isArcSeg : SegmentType → Bool
  | .arc _ _ _ _ _ _ => true
  | _ => false

/-- The centers of the `SegmentCircle`s in an element, in order. -/
def circleCenters (e : ElementState) : List (ℝ × ℝ) :=
  e.segments.filterMap (fun s =>
    match s with
    | .circle c _ => some c
    | _ => none)

/-- Is a segment the dotted (`ls=':'`) polyline? -/
def isLinkSeg : SegmentType → Bool
  | .seg _ (some l) => l == ":"
  | _ => false

/-! ## Association-list lookup helpers -/

theorem lookup_cons_ne {α : Type} {β : Type} [BEq α] {k a : α} {b : β}
    {es : List (α × β)} (h : (a == k) = false) :
    ((k, b) :: es).lookup a = es.lookup a := by
  simp [List.lookup_cons, h]

theorem lookup_map_range_eq_none {β : Type} (g : ℕ → AnchorName) (f : ℕ → β)
    (key : AnchorName) (n : ℕ) (h : ∀ j, j < n → g j ≠ key) :
    ((List.range n).map (fun j => (g j, f j))).lookup key = none := by
  rw [List.lookup_eq_none_iff]
  intro p hp
  simp only [List.mem_map, List.mem_range] at hp
  obtain ⟨j, hj, rfl⟩ := hp
  exact bne_iff_ne.mpr (fun e => h j hj e.symm)

theorem lookup_map_range_eq_some {β : Type} (g : ℕ → AnchorName) (f : ℕ → β)
    (hg : ∀ x y, g x = g y → x = y) (n i : ℕ) (hi : i < n) :
    ((List.range n).map (fun j => (g j, f j))).lookup (g i) = some (f i) := by
  induction n with
  | zero => omega
  | succ n ih =>
    rw [List.range_succ, List.map_append, List.lookup_append]
    by_cases h : i < n
    · rw [ih h]
      rfl
    · have hin : i = n := by omega
      subst hin
      rw [lookup_map_range_eq_none g f (g i) i
        (fun j hj e => absurd (hg j i e) (by omega))]
      simp

/-! ## SwitchRotary anchor lemmas -/

theorem anchorOf_rotary_T (n : ℕ) (dtheta theta0 : Option ℝ) (radius arrowlen : ℝ)
    (ac : ℤ) (i : ℕ) (hi : i < n) :
    anchorOf (SwitchRotary n dtheta theta0 radius arrowlen ac) (AnchorName.T (i + 1))
      = some (radius * Real.cos (contactAngle n dtheta theta0 i),
              radius * Real.sin (contactAngle n dtheta theta0 i)) := by
  show ((AnchorName.P, ((0 : ℝ), (0 : ℝ))) ::
      (List.range n).map (fun j =>
        (AnchorName.T (j + 1),
         (radius * Real.cos (contactAngle n dtheta theta0 j),
          radius * Real.sin (contactAngle n dtheta theta0 j))))).lookup
        (AnchorName.T (i + 1)) = _
  rw [lookup_cons_ne (by simp)]
  exact lookup_map_range_eq_some (fun j => AnchorName.T (j + 1))
    (fun j => (radius * Real.cos (contactAngle n dtheta theta0 j),
               radius * Real.sin (contactAngle n dtheta theta0 j)))
    (fun x y e => by simpa using e) n i hi

theorem anchorOf_rotary_P (n : ℕ) (dtheta theta0 : Option ℝ) (radius arrowlen : ℝ)
    (ac : ℤ) :
    anchorOf (SwitchRotary n dtheta theta0 radius arrowlen ac) AnchorName.P
      = some ((0 : ℝ), (0 : ℝ)) := by
  show ((AnchorName.P, ((0 : ℝ), (0 : ℝ))) :: _).lookup AnchorName.P = _
  exact List.lookup_cons_self

/-- C9: `SwitchRotary` with `n = 0` produces only the origin contact circle
(one segment) and the single anchor `P` at the origin: no `T` anchors, no
contact circles away from the origin, no pointer arrow, and no error. -/
theorem C9_rotary_n_zero (dtheta theta0 : Option ℝ) (radius arrowlen : ℝ) (ac : ℤ) :
    (SwitchRotary 0 dtheta theta0 radius arrowlen ac).segments
        = [SegmentType.circle (0, 0) sw_dot_r]
    ∧ (SwitchRotary 0 dtheta theta0 radius arrowlen ac).anchors
        = [(AnchorName.P, ((0 : ℝ), (0 : ℝ)))] := by
  constructor <;> rfl

/-- C6: for every action value, `SwitchSpdt` exposes exactly the anchors
`a = (0,0)`, `b = (1,0)`, `c = (1,0.7)`, and forwards `action` unchanged to
the base `Switch` geometry. -/
theorem C6_spdt_anchors (action : Option String) :
    (SwitchSpdt action).anchors
        = [(AnchorName.a, ((0 : ℝ), (0 : ℝ))), (AnchorName.b, (1, 0)),
           (AnchorName.c, (1, 0.7))]
    ∧ (SwitchSpdt action).segments
        = (Switch action).segments ++ [SegmentType.circle (1 - sw_dot_r, 0.7) sw_dot_r] := by
  constructor <;> rfl

/-- C4: `Switch` with no action produces exactly the 3 segments (lever
polyline, two contact circles) and no arc; `action='open'` adds exactly one
ccw-arrow arc, `action='close'` exactly one cw-arrow arc; at most one arc is
ever present; any other action value adds no arc. -/
theorem C4_switch_action (s : String) (hs1 : s ≠ "open") (hs2 : s ≠ "close") :
    (Switch none).segments
        = [SegmentType.seg [P2 0 0, gap, P2 (sw_dot_r * 2) 0.1, P2 0.8 0.45, gap, P2 1 0] none,
           SegmentType.circle (sw_dot_r, 0) sw_dot_r,
           SegmentType.circle (1 - sw_dot_r, 0) sw_dot_r]
    ∧ (Switch none).segments.filter isArcSeg = []
    ∧ (Switch (some "open")).segments.filter isArcSeg
        = [SegmentType.arc (0.4, 0.1) 0.5 0.75 (-10) 70 (some "ccw")]
    ∧ (Switch (some "close")).segments.filter isArcSeg
        = [SegmentType.arc (0.4, 0.25) 0.5 0.75 (-10) 70 (some "cw")]
    ∧ (Switch (some s)).segments.filter isArcSeg = []
    ∧ ∀ action : Option String, ((Switch action).segments.filter isArcSeg).length ≤ 1 := by
  refine ⟨rfl, rfl, ?_, ?_, ?_, ?_⟩
  · simp [Switch, isArcSeg, List.filter]
  · simp [Switch, isArcSeg, List.filter]
  · simp [Switch, isArcSeg, List.filter, hs1, hs2]
  · intro action
    match action with
    | none => simp [Switch, isArcSeg, List.filter]
    | some s' =>
      by_cases h1 : s' = "open"
      · subst h1
        simp [Switch, isArcSeg, List.filter]
      · by_cases h2 : s' = "close"
        · subst h2
          simp [Switch, isArcSeg, List.filter]
        · simp [Switch, isArcSeg, List.filter, h1, h2]

theorem C4_switch_action_witness :
    ("x" ≠ "open" ∧ "x" ≠ "close")
    ∧ ((Switch none).segments
        = [SegmentType.seg [P2 0 0, gap, P2 (sw_dot_r * 2) 0.1, P2 0.8 0.45, gap, P2 1 0] none,
           SegmentType.circle (sw_dot_r, 0) sw_dot_r,
           SegmentType.circle (1 - sw_dot_r, 0) sw_dot_r]
    ∧ (Switch none).segments.filter isArcSeg = []
    ∧ (Switch (some "open")).segments.filter isArcSeg
        = [SegmentType.arc (0.4, 0.1) 0.5 0.75 (-10) 70 (some "ccw")]
    ∧ (Switch (some "close")).segments.filter isArcSeg
        = [SegmentType.arc (0.4, 0.25) 0.5 0.75 (-10) 70 (some "cw")]
    ∧ (Switch (some "x")).segments.filter isArcSeg = []
    ∧ ∀ action : Option String, ((Switch action).segments.filter isArcSeg).length ≤ 1) :=
  ⟨⟨by decide, by decide⟩, C4_switch_action "x" (by decide) (by decide)⟩

/-- C7: for `SwitchDpst` and `SwitchDpdt`, the dotted (`ls=':'`) link segment
is present if and only if `link = true` (the default); with `link = false` it
is absent and all other segments and the anchors are unchanged. -/
theorem C7_dpst_dpdt_link (link : Bool) :
    ((SwitchDpst link).segments.filter isLinkSeg
        = if link then [SegmentType.seg [P2 0.5 (-1 + 0.25), P2 0.5 0.2] (some ":")] else [])
    ∧ (SwitchDpst link).segments.filter (fun s => ! isLinkSeg s)
        = (SwitchDpst false).segments
    ∧ (SwitchDpst link).anchors = (SwitchDpst false).anchors
    ∧ ((SwitchDpdt link).segments.filter isLinkSeg
        = if link then [SegmentType.seg [P2 0.5 (-1.4 + 0.25), P2 0.5 0.2] (some ":")] else [])
    ∧ (SwitchDpdt link).segments.filter (fun s => ! isLinkSeg s)
        = (SwitchDpdt false).segments
    ∧ (SwitchDpdt link).anchors = (SwitchDpdt false).anchors := by
  cases link <;>
    refine ⟨?_, ?_, rfl, ?_, ?_, rfl⟩ <;>
      simp [SwitchDpst, SwitchDpdt, isLinkSeg, List.filter]

/-- C5 counterexample: `SwitchSpdt2` does not place any contact circle
centered at `(0,0)` (nor at `(1,-.4)` or `(1,.4)`): the circle centers are
inset by the dot radius, so the claim's stated centers are wrong. -/
theorem C5_spdt2_centers_counterexample :
    circleCenters (SwitchSpdt2 none)
        = [(sw_dot_r, 0), (1 - sw_dot_r, -0.4), (1 - sw_dot_r, 0.4)]
    ∧ ((0 : ℝ), (0 : ℝ)) ∉ circleCenters (SwitchSpdt2 none)
    ∧ circleCenters (SwitchSpdt2 none) ≠ [((0 : ℝ), (0 : ℝ)), (1, -0.4), (1, 0.4)] := by
  refine ⟨rfl, ?_, ?_⟩
  · show ((0 : ℝ), (0 : ℝ)) ∉
      [((sw_dot_r : ℝ), (0 : ℝ)), (1 - sw_dot_r, -0.4), (1 - sw_dot_r, 0.4)]
    simp only [List.mem_cons, List.not_mem_nil, or_false, Prod.mk.injEq, sw_dot_r, not_or]
    norm_num
  · show [((sw_dot_r : ℝ), (0 : ℝ)), (1 - sw_dot_r, -0.4), (1 - sw_dot_r, 0.4)] ≠ _
    simp only [ne_eq, List.cons.injEq, Prod.mk.injEq, sw_dot_r, not_and]
    norm_num

/-- C5 (amended): for every action value, `SwitchSpdt2` produces exactly three
contact circles, centered at `(sw_dot_r, 0)`, `(1-sw_dot_r, -.4)` and
`(1-sw_dot_r, .4)` (inset by the dot radius from the connection points), a
lever polyline from `(0,0)` to `(1,.4)`, anchors `a`, `b`, `c`, and the
layout `drop` parameter `(1,.4)`. -/
theorem C5_spdt2_geometry (action : Option String) :
    circleCenters (SwitchSpdt2 action)
        = [(sw_dot_r, 0), (1 - sw_dot_r, -0.4), (1 - sw_dot_r, 0.4)]
    ∧ (SwitchSpdt2 action).segments.head?
        = some (SegmentType.seg
            [P2 0 0, gap, P2 (sw_dot_r * 2) 0.1, P2 0.7 0.25, gap, P2 1 0.4] none)
    ∧ (SwitchSpdt2 action).anchors
        = [(AnchorName.a, ((0 : ℝ), (0 : ℝ))), (AnchorName.b, (1, 0.4)),
           (AnchorName.c, (1, -0.4))]
    ∧ (SwitchSpdt2 action).drop = some ((1 : ℝ), (0.4 : ℝ)) := by
  match action with
  | none => exact ⟨rfl, rfl, rfl, rfl⟩
  | some s =>
    by_cases h1 : s = "open"
    · subst h1
      exact ⟨rfl, rfl, rfl, rfl⟩
    · by_cases h2 : s = "close"
      · subst h2
        exact ⟨rfl, rfl, rfl, rfl⟩
      · refine ⟨?_, ?_, rfl, rfl⟩ <;>
          simp [SwitchSpdt2, circleCenters, h1, h2, List.filterMap]

/-- A `flatMap` over `range n` that yields a singleton at exactly the index
equal to `ac` (and nothing elsewhere) produces `[f ac.toNat]` when
`0 ≤ ac < n`, and `[]` otherwise. -/
theorem flatMap_range_if {β : Type} (n : ℕ) (ac : ℤ) (f : ℕ → List β) :
    (List.range n).flatMap (fun i => if (i : ℤ) = ac then f i else [])
      = if 0 ≤ ac ∧ ac < (n : ℤ) then f ac.toNat else [] := by
  induction n with
  | zero =>
    have h : ¬(0 ≤ ac ∧ ac < ((0 : ℕ) : ℤ)) := by omega
    simp [h]
  | succ n ih =>
    rw [List.range_succ, List.flatMap_append, ih]
    simp only [List.flatMap_cons, List.flatMap_nil, List.append_nil]
    by_cases h1 : (n : ℤ) = ac
    · have hlt : ¬(0 ≤ ac ∧ ac < (n : ℤ)) := by omega
      have hlt2 : 0 ≤ ac ∧ ac < ((n + 1 : ℕ) : ℤ) := by omega
      have hn : ac.toNat = n := by omega
      simp [hlt, hlt2, h1, hn]
    · by_cases h2 : 0 ≤ ac ∧ ac < (n : ℤ)
      · have h3 : 0 ≤ ac ∧ ac < ((n + 1 : ℕ) : ℤ) := by omega
        simp only [if_pos h2, if_pos h3, h1, if_neg h1, List.append_nil]
        simp
      · have h3 : ¬(0 ≤ ac ∧ ac < ((n + 1 : ℕ) : ℤ)) := by omega
        simp only [if_neg h2, if_neg h3, h1, if_neg h1, List.append_nil]
        simp

/-- C3: for every `SwitchRotary` construction, the arrow segments are exactly
one arrow from the origin to `(arrowlen*cos t, arrowlen*sin t)` at the
`arrowcontact` contact's angle `t` when `arrowcontact ∈ [0, n)`, and there is
no arrow segment at all (and no error) when `arrowcontact` is out of range. -/
theorem C3_rotary_arrow (n : ℕ) (dtheta theta0 : Option ℝ) (radius arrowlen : ℝ)
    (ac : ℤ) :
    (SwitchRotary n dtheta theta0 radius arrowlen ac).segments.filter isArrowSeg
      = if 0 ≤ ac ∧ ac < (n : ℤ) then
          [SegmentType.arrow (0, 0)
            (arrowlen * Real.cos (contactAngle n dtheta theta0 ac.toNat),
             arrowlen * Real.sin (contactAngle n dtheta theta0 ac.toNat)) (some 2)]
        else [] := by
  show (SegmentType.circle (0, 0) sw_dot_r ::
      (List.range n).flatMap (fun i =>
        SegmentType.circle (radius * Real.cos (contactAngle n dtheta theta0 i),
                            radius * Real.sin (contactAngle n dtheta theta0 i)) sw_dot_r ::
        (if (i : ℤ) = ac then
          [SegmentType.arrow (0, 0)
            (arrowlen * Real.cos (contactAngle n dtheta theta0 i),
             arrowlen * Real.sin (contactAngle n dtheta theta0 i)) (some 2)]
        else []))).filter isArrowSeg = _
  rw [List.filter_cons_of_neg (by simp [isArrowSeg]), List.filter_flatMap]
  have hcong : ∀ i,
      (SegmentType.circle (radius * Real.cos (contactAngle n dtheta theta0 i),
                           radius * Real.sin (contactAngle n dtheta theta0 i)) sw_dot_r ::
        (if (i : ℤ) = ac then
          [SegmentType.arrow (0, 0)
            (arrowlen * Real.cos (contactAngle n dtheta theta0 i),
             arrowlen * Real.sin (contactAngle n dtheta theta0 i)) (some 2)]
        else [])).filter isArrowSeg
      = if (i : ℤ) = ac then
          [SegmentType.arrow (0, 0)
            (arrowlen * Real.cos (contactAngle n dtheta theta0 i),
             arrowlen * Real.sin (contactAngle n dtheta theta0 i)) (some 2)]
        else [] := by
    intro i
    by_cases h : (i : ℤ) = ac <;> simp [h, isArrowSeg, List.filter]
  simp only [hcong]
  exact flatMap_range_if n ac _

/-- C10: `SwitchRotary` with `n = 1` and `dtheta`, `theta0` unsupplied places
its single contact at angle 0 (anchor `T1 = (radius, 0)` on the positive
x-axis) and, with the default `arrowcontact = 0`, emits the pointer arrow
from the origin to `(arrowlen, 0)`. -/
theorem C10_rotary_n_one (radius arrowlen : ℝ) :
    contactAngle 1 none none 0 = 0
    ∧ anchorOf (SwitchRotary 1 none none radius arrowlen 0) (AnchorName.T 1)
        = some (radius, 0)
    ∧ (SwitchRotary 1 none none radius arrowlen 0).segments.filter isArrowSeg
        = [SegmentType.arrow (0, 0) (arrowlen, 0) (some 2)] := by
  have hang : contactAngle 1 none none 0 = 0 := by
    simp [contactAngle, rotaryTheta0, rotaryDtheta]
  refine ⟨hang, ?_, ?_⟩
  · have h := anchorOf_rotary_T 1 none none radius arrowlen 0 0 (by norm_num)
    rw [hang] at h
    simpa using h
  · show (SegmentType.circle (0, 0) sw_dot_r ::
        (List.range 1).flatMap (fun i =>
          SegmentType.circle (radius * Real.cos (contactAngle 1 none none i),
                              radius * Real.sin (contactAngle 1 none none i)) sw_dot_r ::
          (if (i : ℤ) = 0 then
            [SegmentType.arrow (0, 0)
              (arrowlen * Real.cos (contactAngle 1 none none i),
               arrowlen * Real.sin (contactAngle 1 none none i)) (some 2)]
          else []))).filter isArrowSeg = _
    rw [show List.range 1 = [0] from rfl]
    simp [isArrowSeg, List.filter, hang]

/-- C2: with `dtheta` and `theta0` unsupplied, `dtheta` defaults to
`min(35°, 360°/(n+1))`, `theta0` defaults to `-dtheta*(n-1)/2` after the
radian conversion, contact `i < n` is placed (circle and anchor `T(i+1)`) at
`(radius*cos(theta0 + dtheta*i), radius*sin(theta0 + dtheta*i))`, and for
`n = 4` at the default radius 1 the anchors `T1..T4` sit at angles
`{-52.5, -17.5, 17.5, 52.5}` degrees with anchor `P` at the origin. -/
theorem C2_rotary_defaults (n : ℕ) (radius arrowlen : ℝ) (ac : ℤ) (i : ℕ)
    (hi : i < n) :
    anchorOf (SwitchRotary n none none radius arrowlen ac) (AnchorName.T (i + 1))
      = some (radius * Real.cos (-radians (min 35 (360 / ((n : ℝ) + 1))) * ((n : ℝ) - 1) / 2
                + radians (min 35 (360 / ((n : ℝ) + 1))) * (i : ℝ)),
              radius * Real.sin (-radians (min 35 (360 / ((n : ℝ) + 1))) * ((n : ℝ) - 1) / 2
                + radians (min 35 (360 / ((n : ℝ) + 1))) * (i : ℝ)))
    ∧ anchorOf (SwitchRotary n none none radius arrowlen ac) AnchorName.P
        = some (0, 0)
    ∧ anchorOf (SwitchRotary 4 none none 1 0.75 0) (AnchorName.T 1)
        = some (Real.cos (radians (-52.5)), Real.sin (radians (-52.5)))
    ∧ anchorOf (SwitchRotary 4 none none 1 0.75 0) (AnchorName.T 2)
        = some (Real.cos (radians (-17.5)), Real.sin (radians (-17.5)))
    ∧ anchorOf (SwitchRotary 4 none none 1 0.75 0) (AnchorName.T 3)
        = some (Real.cos (radians 17.5), Real.sin (radians 17.5))
    ∧ anchorOf (SwitchRotary 4 none none 1 0.75 0) (AnchorName.T 4)
        = some (Real.cos (radians 52.5), Real.sin (radians 52.5))
    ∧ anchorOf (SwitchRotary 4 none none 1 0.75 0) AnchorName.P = some (0, 0) := by
  have hmin : min (35 : ℝ) (360 / (((4 : ℕ) : ℝ) + 1)) = 35 := by norm_num
  have e0 : contactAngle 4 none none 0 = radians (-52.5) := by
    simp only [contactAngle, rotaryDtheta, rotaryTheta0, hmin, radians]
    push_cast
    ring_nf
  have e1 : contactAngle 4 none none 1 = radians (-17.5) := by
    simp only [contactAngle, rotaryDtheta, rotaryTheta0, hmin, radians]
    push_cast
    ring_nf
  have e2 : contactAngle 4 none none 2 = radians 17.5 := by
    simp only [contactAngle, rotaryDtheta, rotaryTheta0, hmin, radians]
    push_cast
    ring_nf
  have e3 : contactAngle 4 none none 3 = radians 52.5 := by
    simp only [contactAngle, rotaryDtheta, rotaryTheta0, hmin, radians]
    push_cast
    ring_nf
  have h0 := anchorOf_rotary_T 4 none none 1 0.75 0 0 (by norm_num)
  have h1 := anchorOf_rotary_T 4 none none 1 0.75 0 1 (by norm_num)
  have h2 := anchorOf_rotary_T 4 none none 1 0.75 0 2 (by norm_num)
  have h3 := anchorOf_rotary_T 4 none none 1 0.75 0 3 (by norm_num)
  rw [e0] at h0
  rw [e1] at h1
  rw [e2] at h2
  rw [e3] at h3
  exact ⟨anchorOf_rotary_T n none none radius arrowlen ac i hi,
         anchorOf_rotary_P n none none radius arrowlen ac,
         by simpa using h0, by simpa using h1, by simpa using h2, by simpa using h3,
         anchorOf_rotary_P 4 none none 1 0.75 0⟩

theorem C2_rotary_defaults_witness :
    2 < 4
    ∧ (anchorOf (SwitchRotary 4 none none 2 1 5) (AnchorName.T (2 + 1))
        = some (2 * Real.cos (-radians (min 35 (360 / (((4 : ℕ) : ℝ) + 1))) * (((4 : ℕ) : ℝ) - 1) / 2
                  + radians (min 35 (360 / (((4 : ℕ) : ℝ) + 1))) * ((2 : ℕ) : ℝ)),
                2 * Real.sin (-radians (min 35 (360 / (((4 : ℕ) : ℝ) + 1))) * (((4 : ℕ) : ℝ) - 1) / 2
                  + radians (min 35 (360 / (((4 : ℕ) : ℝ) + 1))) * ((2 : ℕ) : ℝ)))
    ∧ anchorOf (SwitchRotary 4 none none 2 1 5) AnchorName.P = some (0, 0)
    ∧ anchorOf (SwitchRotary 4 none none 1 0.75 0) (AnchorName.T 1)
        = some (Real.cos (radians (-52.5)), Real.sin (radians (-52.5)))
    ∧ anchorOf (SwitchRotary 4 none none 1 0.75 0) (AnchorName.T 2)
        = some (Real.cos (radians (-17.5)), Real.sin (radians (-17.5)))
    ∧ anchorOf (SwitchRotary 4 none none 1 0.75 0) (AnchorName.T 3)
        = some (Real.cos (radians 17.5), Real.sin (radians 17.5))
    ∧ anchorOf (SwitchRotary 4 none none 1 0.75 0) (AnchorName.T 4)
        = some (Real.cos (radians 52.5), Real.sin (radians 52.5))
    ∧ anchorOf (SwitchRotary 4 none none 1 0.75 0) AnchorName.P = some (0, 0)) :=
  ⟨by norm_num, C2_rotary_defaults 4 2 1 5 2 (by norm_num)⟩

/-- C1 (code bug): with `dtheta` and `theta0` both supplied explicitly, the
code converts `dtheta` to radians but uses `theta0` as-is, so
`SwitchRotary(n=1, dtheta=20, theta0=180)` places contact 0 (anchor `T1`) at
`(cos 180, sin 180)` — 180 *radians* — whereas the documented degree
interpretation demands the angle `radians 180 = π`, whose sine is 0; since
`sin 180 ≠ 0`, the two placements differ. -/
theorem C1_rotary_explicit_theta0_bug :
    anchorOf (SwitchRotary 1 (some 20) (some 180) 1 0.75 0) (AnchorName.T 1)
      = some (Real.cos 180, Real.sin 180)
    ∧ Real.sin (radians 180) = 0
    ∧ Real.sin 180 ≠ 0 := by
  have hang : contactAngle 1 (some 20) (some 180) 0 = 180 := by
    simp [contactAngle, rotaryTheta0, rotaryDtheta]
  have h := anchorOf_rotary_T 1 (some 20) (some 180) 1 0.75 0 0 (by norm_num)
  rw [hang] at h
  refine ⟨by simpa using h, ?_, ?_⟩
  · have hr : radians 180 = Real.pi := by
      unfold radians
      field_simp
    rw [hr, Real.sin_pi]
  · intro hsin
    rw [Real.sin_eq_zero_iff] at hsin
    obtain ⟨m, hm⟩ := hsin
    have hm0 : m ≠ 0 := by
      rintro rfl
      norm_num at hm
    have hmr : (m : ℝ) ≠ 0 := Int.cast_ne_zero.mpr hm0
    have hpi : Real.pi = ((180 / m : ℚ) : ℝ) := by
      push_cast
      rw [eq_div_iff hmr]
      linear_combination hm
    exact Rat.not_irrational _ (hpi ▸ irrational_pi)

/-- C8: for sampling resolution `k ≥ 1` per semicircular half, the
`SwitchReed` envelope polyline has exactly `2k+1` points and is closed (its
first point equals its last point). -/
theorem C8_reed_envelope (k : ℕ) (hk : 1 ≤ k) :
    (reedEnvelope k).length = 2 * k + 1
    ∧ (reedEnvelope k).head? = (reedEnvelope k).getLast?
    ∧ (SwitchReed k).segments
        = [SegmentType.seg [P2 0 0, P2 0.85 0.15, gap, P2 0.8 0] none,
           SegmentType.seg ((reedEnvelope k).map (fun p => P2 p.1 p.2)) none] := by
  have hth : (reedTh k).length = k := by
    rw [reedTh, linspace, List.length_map, List.length_range]
  have hx1 : (reedX1 k).length = k := by rw [reedX1, List.length_map, hth]
  have hy1 : (reedY1 k).length = k := by rw [reedY1, List.length_map, hth]
  have hx : (reedX k).length = 2 * k + 1 := by
    simp [reedX, hx1]
    omega
  have hy : (reedY k).length = 2 * k + 1 := by
    simp [reedY, hy1]
    omega
  obtain ⟨t, ts, hcons⟩ : ∃ t ts, reedTh k = t :: ts := by
    cases h : reedTh k with
    | nil => rw [h] at hth; simp at hth; omega
    | cons t ts => exact ⟨t, ts, rfl⟩
  have hx1c : reedX1 k = (-0.3 * Real.cos t) :: ts.map (fun u => -0.3 * Real.cos u) := by
    rw [reedX1, hcons, List.map_cons]
  have hy1c : reedY1 k = (0.3 * Real.sin t) :: ts.map (fun u => 0.3 * Real.sin u) := by
    rw [reedY1, hcons, List.map_cons]
  have hxh : (reedX1 k).headD 0 = -0.3 * Real.cos t := by rw [hx1c]; rfl
  have hyh : (reedY1 k).headD 0 = 0.3 * Real.sin t := by rw [hy1c]; rfl
  have hlen2 : (reedX1 k ++ (reedX1 k).map (fun v => 1 - v)).length
      = (reedY1 k ++ (reedY1 k).reverse).length := by
    simp [hx1, hy1]
  have hsplit : reedEnvelope k
      = (reedX1 k ++ (reedX1 k).map (fun v => 1 - v)).zip
          (reedY1 k ++ (reedY1 k).reverse)
        ++ [((reedX1 k).headD 0, (reedY1 k).headD 0)] := by
    rw [reedEnvelope, reedX, reedY, List.append_assoc, List.append_assoc,
      ← List.append_assoc (reedX1 k), ← List.append_assoc (reedY1 k)]
    rw [List.zip_append hlen2]
    rfl
  refine ⟨?_, ?_, rfl⟩
  · rw [reedEnvelope, List.length_zip, hx, hy]
    omega
  · have hlast : (reedEnvelope k).getLast?
        = some ((reedX1 k).headD 0, (reedY1 k).headD 0) := by
      rw [hsplit, List.getLast?_concat]
    have hhead : (reedEnvelope k).head?
        = some ((reedX1 k).headD 0, (reedY1 k).headD 0) := by
      rw [reedEnvelope, reedX, reedY, hx1c, hy1c]
      simp [hxh, hyh, hx1c, hy1c]
    rw [hhead, hlast]

theorem C8_reed_envelope_witness :
    1 ≤ 50
    ∧ ((reedEnvelope 50).length = 2 * 50 + 1
    ∧ (reedEnvelope 50).head? = (reedEnvelope 50).getLast?
    ∧ (SwitchReed 50).segments
        = [SegmentType.seg [P2 0 0, P2 0.85 0.15, gap, P2 0.8 0] none,
           SegmentType.seg ((reedEnvelope 50).map (fun p => P2 p.1 p.2)) none]) :=
  ⟨by norm_num, C8_reed_envelope 50 (by norm_num)⟩
